import Mathlib

/-!
Verification of the EchoCore Pro voice server orchestration layer
(`src/EchoCorePro/Scripts/openvoice_server.py`) against its specification.

The embedding models text as `List Char` (the server only manipulates ASCII
in the specified scenarios), audio durations as `ℚ` (the source computes
`frames / float(rate)`, an exact rational of the WAV header fields), audio
buffers as opaque `Nat` tokens (the source uses fresh temp-file paths), and
WAV data as a PCM parameter record plus a frame list.
-/

set_option maxRecDepth 100000

namespace EchoCore

/-! ## ChunkOrchestrator: the per-chunk retry loop of `synthesize_with_xtts`
(lines 332-386 of `openvoice_server.py`).

One backend attempt either raises (`err`) or writes a fresh buffer `buf`
whose measured duration is `dur`.  The loop state mirrors the source's
`chunk_success`, `best_chunk_path`, `max_duration` locals; `attemptsMade`
counts iterations of `for attempt in range(chunk_retries + 1)` that ran a
backend call.  -/

inductive AttemptOutcome where
  | err : AttemptOutcome
  | ok : Nat → ℚ → AttemptOutcome
deriving DecidableEq

structure LoopResult where
  success : Bool
  best : Option Nat
  attemptsMade : Nat
deriving DecidableEq

/-- The body of the retry loop, translated clause for clause:
`except` continues the loop; with `chunk_min_seconds > 0` a duration at or
above the threshold breaks with success, a shorter one replaces the best
candidate only when strictly longer than `max_duration`; with
`chunk_min_seconds <= 0` the first non-raising call breaks with success. -/
def chunkLoop (minSec : ℚ) : List AttemptOutcome → Nat → Option Nat → ℚ → LoopResult
  | [], made, best, _ => ⟨false, best, made⟩
  | .err :: rest, made, best, m => chunkLoop minSec rest (made + 1) best m
  | .ok b d :: rest, made, best, m =>
    if 0 < minSec then
      if minSec ≤ d then ⟨true, some b, made + 1⟩
      else if m < d then chunkLoop minSec rest (made + 1) (some b) d
      else chunkLoop minSec rest (made + 1) best m
    else ⟨true, some b, made + 1⟩

/-- Run the retry loop from the source's initial state
(`chunk_success = False`, `best_chunk_path = None`, `max_duration = 0`).
The list holds the outcome each attempt would have, so its length is the
configured `chunk_retries + 1`. -/
def runChunk (minSec : ℚ) (outs : List AttemptOutcome) : LoopResult :=
  chunkLoop minSec outs 0 none 0

/-- The best-candidate update of the loop (`if duration > max_duration`). -/
def stepBM (s : Option Nat × ℚ) (o : AttemptOutcome) : Option Nat × ℚ :=
  match o with
  | .err => s
  | .ok b d => if s.2 < d then (some b, d) else s

/-- `durLT x o`: the attempt raised, or measured strictly below `x`. -/
def durLT (x : ℚ) : AttemptOutcome → Bool
  | .err => true
  | .ok _ d => decide (d < x)

/-- `durLE x o`: the attempt raised, or measured at most `x`. -/
def durLE (x : ℚ) : AttemptOutcome → Bool
  | .err => true
  | .ok _ d => decide (d ≤ x)

/-! ## Chunk assembly in `synthesize_with_xtts` (lines 383-406).

A chunk whose loop ends with `best_chunk_path` set contributes its buffer to
`chunk_files`; otherwise it is only logged.  With a single collected file it
is moved to the output, with several they are merged; with none, `merge_wavs`
returns `False` without creating the output file and the subsequent
`os.path.getsize` raises, failing the request. -/

def synthesizeChunksKept (minSec : ℚ) (chunkOutcomes : List (List AttemptOutcome)) :
    List Nat :=
  chunkOutcomes.filterMap (fun outs => (runChunk minSec outs).best)

def synthesize_with_xtts_result (minSec : ℚ)
    (chunkOutcomes : List (List AttemptOutcome)) : Option (List Nat) :=
  if (synthesizeChunksKept minSec chunkOutcomes).isEmpty then none
  else some (synthesizeChunksKept minSec chunkOutcomes)

/-! ## TextChunker: `smart_split` (lines 227-262) and the request text
normalization of the `/synthesize` route (lines 716-719).

Text is a `List Char`.  `pySpace` is the ASCII part of Python's `\s` /
`str.strip()` whitespace class (the specified scenarios are ASCII). -/

def pySpace (c : Char) : Bool :=
  c == ' ' || c == '\t' || c == '\n' || c == '\r' || c == '\x0b' || c == '\x0c'

/-- Python `str.strip()`. -/
def pyStrip (s : List Char) : List Char :=
  ((s.dropWhile pySpace).reverse.dropWhile pySpace).reverse

/-- Python `str.strip(',')`: commas removed from both ends. -/
def pyStripComma (s : List Char) : List Char :=
  ((s.dropWhile (· == ',')).reverse.dropWhile (· == ',')).reverse

/-- Helper for Python `str.split()` (no argument): maximal non-whitespace
runs, empties dropped. -/
def pySplitWSAux : List Char → List Char → List (List Char)
  | [], acc => if acc.isEmpty then [] else [acc.reverse]
  | c :: rest, acc =>
    if pySpace c then
      if acc.isEmpty then pySplitWSAux rest [] else acc.reverse :: pySplitWSAux rest []
    else pySplitWSAux rest (c :: acc)

def pySplitWS (s : List Char) : List (List Char) := pySplitWSAux s []

/-- The `/synthesize` route's text cleaning: periods, commas, colons and
semicolons are replaced by spaces so that the backend does not vocalize them
as punctuation names. -/
def replacePunct (c : Char) : Char :=
  if c == '.' || c == ',' || c == ':' || c == ';' then ' ' else c

/-- `text.strip()`, the punctuation replacement, then
`' '.join(text.split())` — the normalization performed before chunking. -/
def normalize_text (s : List Char) : List Char :=
  List.intercalate [' '] (pySplitWS ((pyStrip s).map replacePunct))

def isSentPunct (c : Char) : Bool := c == '.' || c == '!' || c == '?'

/-- Python `re.split(r'(?<=[.!?])\s+', text)`: a maximal whitespace run
directly preceded by `.`, `!` or `?` separates two segments and is consumed.
First argument: whether we are inside such a run; then the remaining input,
the current segment (reversed), and whether the previous character was
sentence punctuation. -/
def sentSplitGo : Bool → List Char → List Char → Bool → List (List Char)
  | _, [], acc, _ => [acc.reverse]
  | true, c :: rest, acc, _ =>
    if pySpace c then sentSplitGo true rest acc false
    else sentSplitGo false rest [c] (isSentPunct c)
  | false, c :: rest, acc, prevPunct =>
    if prevPunct && pySpace c then acc.reverse :: sentSplitGo true rest [] false
    else sentSplitGo false rest (c :: acc) (isSentPunct c)

def sentSplit (s : List Char) : List (List Char) := sentSplitGo false s [] false

/-- Python `str.split(',')`: split at every comma, empties kept. -/
def splitCommaAux : List Char → List Char → List (List Char)
  | [], acc => [acc.reverse]
  | c :: rest, acc =>
    if c == ',' then acc.reverse :: splitCommaAux rest []
    else splitCommaAux rest (c :: acc)

def splitOnComma (s : List Char) : List (List Char) := splitCommaAux s []

/-- The inner loop of `smart_split` (lines 250-257): greedy accumulation of
comma-delimited parts, each re-appended with a trailing comma; flushed chunks
are stripped of whitespace then commas. -/
def commaLoop (maxLen : Nat) :
    List (List Char) → List (List Char) → List Char → List (List Char) × List Char
  | [], chunks, current => (chunks, current)
  | part :: rest, chunks, current =>
    if current.length + part.length < maxLen then
      commaLoop maxLen rest chunks (current ++ part ++ [','])
    else
      commaLoop maxLen rest
        (if current.isEmpty then chunks else chunks ++ [pyStripComma (pyStrip current)])
        (part ++ [','])

/-- The sentence loop of `smart_split` (lines 239-257): greedy accumulation
of sentences; on overflow the buffer is flushed (stripped of whitespace
only), and a single sentence longer than `maxLen` goes through the comma
loop. -/
def outerLoop (maxLen : Nat) :
    List (List Char) → List (List Char) → List Char → List (List Char) × List Char
  | [], chunks, current => (chunks, current)
  | sentence :: rest, chunks, current =>
    if current.length + sentence.length < maxLen then
      outerLoop maxLen rest chunks (current ++ sentence ++ [' '])
    else
      let chunks1 := if current.isEmpty then chunks else chunks ++ [pyStrip current]
      let current1 := sentence ++ [' ']
      if current1.length > maxLen then
        let r := commaLoop maxLen (splitOnComma current1) chunks1 []
        outerLoop maxLen rest r.1 r.2
      else
        outerLoop maxLen rest chunks1 current1

/-- `smart_split(text, max_len)`. -/
def smart_split (text : List Char) (maxLen : Nat) : List (List Char) :=
  if text.length ≤ maxLen then [text]
  else
    let r := outerLoop maxLen (sentSplit text) [] []
    if r.2.isEmpty then r.1 else r.1 ++ [pyStripComma (pyStrip r.2)]

/-- Normalization followed by chunking, as the `/synthesize` route composes
them before the per-chunk synthesis loop (chunking happens inside the XTTS
path, the only backend path that chunks). -/
def pipeline_chunks (s : List Char) (maxLen : Nat) : List (List Char) :=
  smart_split (normalize_text s) maxLen

/-- C2's requested text: 3 sentences of 150 characters each, 450 characters
total, each ending in the sentence punctuation mark period. -/
def c2TextBad : List Char :=
  (List.replicate 149 'a' ++ ['.']) ++ (List.replicate 149 'b' ++ ['.']) ++
    (List.replicate 149 'c' ++ ['.'])

def c2s1 : List Char := List.replicate 149 'a' ++ ['!']
def c2s2 : List Char := List.replicate 149 'b' ++ ['!']
def c2s3 : List Char := List.replicate 149 'c' ++ ['!']

/-- A variant request text: 3 sentences of 150 characters each ending in
`!` (which normalization preserves), separated by single spaces. -/
def c2TextGood : List Char := c2s1 ++ ' ' :: c2s2 ++ ' ' :: c2s3

/-! ## AudioAssembler: `merge_wavs` (lines 265-292).

A WAV buffer is its PCM parameter record (`wave.getparams()`: sample rate,
channel count, sample width) plus its frame data.  An input is an
`Option WavFile`; `none` stands for a path whose `wave.open` raises (the
source logs and skips such paths). -/

structure WavParams where
  rate : Nat
  channels : Nat
  sampwidth : Nat
deriving DecidableEq

structure WavFile where
  params : WavParams
  frames : List Nat
deriving DecidableEq

/-- `merge_wavs(file_paths, output_path)`: returns `False` (`none`) when the
path list is empty or no path is readable; otherwise stamps the parameters of
the first readable file on the output and appends the frame data of every
readable file in order.  No comparison of parameters is ever made. -/
def merge_wavs (files : List (Option WavFile)) : Option WavFile :=
  if files.isEmpty then none
  else
    match files.filterMap id with
    | [] => none
    | f :: rest => some ⟨f.params, f.frames ++ (rest.map WavFile.frames).flatten⟩

/-! ## BackendRegistry: `synthesize_audio` (lines 576-590) and the XTTS
language mapping of `synthesize_with_xtts` (lines 306-313).

Availability of a backend stands for `<backend>_model is not None`; `active`
is the `active_model` global string. -/

inductive Backend where
  | xtts : Backend
  | chatterbox : Backend
  | openvoice : Backend
deriving DecidableEq

structure BackendState where
  xttsAvailable : Bool
  chatterboxAvailable : Bool
  openvoiceAvailable : Bool
  active : String
deriving DecidableEq

/-- The `xtts_languages` list of `synthesize_audio`. -/
def xtts_languages : List String :=
  ["it", "de", "pt", "pl", "tr", "ru", "nl", "cs", "ar", "hu", "vi"]

/-- The `if`/`elif` chain of `synthesize_audio`; `none` is the final
`raise ValueError(f"No model available...")`. -/
def synthesize_audio_route (st : BackendState) (language : String) : Option Backend :=
  if language ∈ xtts_languages ∧ st.xttsAvailable then some .xtts
  else if st.active = "xtts" ∧ st.xttsAvailable then some .xtts
  else if st.active = "chatterbox" ∧ st.chatterboxAvailable then some .chatterbox
  else if st.active = "openvoice" ∧ st.openvoiceAvailable then some .openvoice
  else none

/-- Whether the globally active backend is itself available. -/
def activeAvailable (st : BackendState) : Bool :=
  if st.active = "xtts" then st.xttsAvailable
  else if st.active = "chatterbox" then st.chatterboxAvailable
  else if st.active = "openvoice" then st.openvoiceAvailable
  else false

/-- `xtts_lang_map` of `synthesize_with_xtts`. -/
def xtts_lang_map : List (String × String) :=
  [("en", "en"), ("es", "es"), ("fr", "fr"), ("de", "de"),
   ("it", "it"), ("pt", "pt"), ("pl", "pl"), ("tr", "tr"),
   ("ru", "ru"), ("nl", "nl"), ("cs", "cs"), ("ar", "ar"),
   ("zh", "zh-cn"), ("ja", "ja"), ("ko", "ko"), ("hu", "hu"), ("vi", "vi")]

/-- `xtts_lang_map.get(language, 'en')`: the language code actually passed
to the XTTS backend. -/
def xttsLanguageFor (language : String) : String :=
  (xtts_lang_map.lookup language).getD "en"

/-! ## Speaker registry: `clone_voice` (lines 643-700).

`speakers` is the process-wide dict, `files` the on-disk speaker WAV files
keyed by the path `speakers/<id>.wav` (one path per id, so keyed by id).
An uploaded recording is an opaque `content` token with its measured
duration `dur` (`len(audio)/sr` of `librosa.load`). -/

structure Audio where
  content : Nat
  dur : ℚ
deriving DecidableEq

structure ServerState where
  speakers : List (String × ℚ)
  files : List (String × Audio)
deriving DecidableEq

inductive CloneResult where
  | invalidId : CloneResult
  | tooShort : ℚ → CloneResult
  | tooLong : ℚ → CloneResult
  | ok : ℚ → CloneResult
deriving DecidableEq

/-- Python-dict-style update: replace the binding if the key is present,
append otherwise. -/
def alSet {α : Type} : List (String × α) → String → α → List (String × α)
  | [], k, v => [(k, v)]
  | p :: rest, k, v => if p.1 == k then (k, v) :: rest else p :: alSet rest k v

/-- Dict lookup. -/
def alGet {α : Type} (l : List (String × α)) (k : String) : Option α :=
  (l.find? (fun p => p.1 == k)).map (fun p => p.2)

/-- Key removal (`del` / `os.unlink`). -/
def alErase {α : Type} (l : List (String × α)) (k : String) : List (String × α) :=
  l.eraseP (fun p => p.1 == k)

/-- `clone_voice`: rejects an empty or over-long id before any side effect;
then `audio_file.save(audio_path)` overwrites the file at the id's path;
then the duration is validated, `os.unlink(audio_path)` removing the file on
failure; on success the dict entry is written (replacing any previous
registration). -/
def clone_voice (st : ServerState) (id : String) (audio : Audio) :
    ServerState × CloneResult :=
  if id = "" ∨ 100 < id.length then (st, .invalidId)
  else
    let saved : ServerState := { st with files := alSet st.files id audio }
    if audio.dur < 3 then
      ({ saved with files := alErase saved.files id }, .tooShort audio.dur)
    else if 60 < audio.dur then
      ({ saved with files := alErase saved.files id }, .tooLong audio.dur)
    else
      ({ saved with speakers := alSet saved.speakers id audio.dur }, .ok audio.dur)

/-- A state with one registered speaker `"a"` (duration 5, stored file). -/
def cloneSt0 : ServerState := ⟨[("a", 5)], [("a", ⟨1, 5⟩)]⟩

/-! ## Lemmas about the retry loop -/

lemma durLT_mono {d x : ℚ} {o : AttemptOutcome} (h : durLT d o = true) (hdx : d ≤ x) :
    durLT x o = true := by
  cases o with
  | err => rfl
  | ok b dd =>
    simp only [durLT, decide_eq_true_eq] at h ⊢
    exact lt_of_lt_of_le h hdx

lemma durLT_of_durLE {d x : ℚ} {o : AttemptOutcome} (h : durLE d o = true) (hdx : d < x) :
    durLT x o = true := by
  cases o with
  | err => rfl
  | ok b dd =>
    simp only [durLE, decide_eq_true_eq] at h
    simp only [durLT, decide_eq_true_eq]
    exact lt_of_le_of_lt h hdx

/-- Under a positive threshold that no attempt reaches, the loop never breaks:
it performs every attempt and its final candidate is the fold of the
best-candidate update over the outcomes. -/
lemma chunkLoop_no_pass (minSec : ℚ) (hm : 0 < minSec) (outs : List AttemptOutcome) :
    ∀ (made : Nat) (best : Option Nat) (m : ℚ),
      (∀ o ∈ outs, durLT minSec o = true) →
      chunkLoop minSec outs made best m =
        ⟨false, (outs.foldl stepBM (best, m)).1, made + outs.length⟩ := by
  induction outs with
  | nil => intro made best m _; simp [chunkLoop]
  | cons o rest ih =>
    intro made best m h
    have hrest : ∀ x ∈ rest, durLT minSec x = true :=
      fun x hx => h x (List.mem_cons_of_mem _ hx)
    cases o with
    | err =>
      have := ih (made + 1) best m hrest
      simp only [chunkLoop, this, stepBM, List.foldl_cons, List.length_cons]
      exact congrArg (LoopResult.mk false _) (by omega)
    | ok b d =>
      have hd : d < minSec := by
        have := h (.ok b d) (List.mem_cons_self _ _)
        simpa [durLT] using this
      have hnot : ¬ minSec ≤ d := not_le.mpr hd
      by_cases hmd : m < d
      · have := ih (made + 1) (some b) d hrest
        simp only [chunkLoop, hm, if_true, hnot, if_false, hmd, if_pos, this,
          List.foldl_cons, stepBM, List.length_cons]
        exact congrArg (LoopResult.mk false _) (by omega)
      · have := ih (made + 1) best m hrest
        simp only [chunkLoop, hm, if_true, hnot, if_false, hmd, this,
          List.foldl_cons, stepBM, List.length_cons]
        exact congrArg (LoopResult.mk false _) (by omega)

/-- The running maximum stays below `d` while all durations are below `d`. -/
lemma foldl_stepBM_lt (d : ℚ) (outs : List AttemptOutcome) :
    ∀ s : Option Nat × ℚ, s.2 < d → (∀ o ∈ outs, durLT d o = true) →
      (outs.foldl stepBM s).2 < d := by
  induction outs with
  | nil => intro s hs _; simpa using hs
  | cons o rest ih =>
    intro s hs h
    have hrest : ∀ x ∈ rest, durLT d x = true :=
      fun x hx => h x (List.mem_cons_of_mem _ hx)
    cases o with
    | err => exact ih s hs hrest
    | ok b dd =>
      have hdd : dd < d := by
        have := h (.ok b dd) (List.mem_cons_self _ _)
        simpa [durLT] using this
      by_cases hm2 : s.2 < dd
      · have : (List.foldl stepBM (stepBM s (.ok b dd)) rest).2 < d := by
          apply ih
          · simpa [stepBM, hm2] using hdd
          · exact hrest
        simpa [List.foldl_cons] using this
      · have : (List.foldl stepBM (stepBM s (.ok b dd)) rest).2 < d := by
          apply ih
          · simpa [stepBM, hm2] using hs
          · exact hrest
        simpa [List.foldl_cons] using this

/-- The candidate state is unchanged by outcomes that never exceed it. -/
lemma foldl_stepBM_const (outs : List AttemptOutcome) :
    ∀ s : Option Nat × ℚ, (∀ o ∈ outs, durLE s.2 o = true) →
      outs.foldl stepBM s = s := by
  induction outs with
  | nil => intro s _; rfl
  | cons o rest ih =>
    intro s h
    have hrest : ∀ x ∈ rest, durLE s.2 x = true :=
      fun x hx => h x (List.mem_cons_of_mem _ hx)
    cases o with
    | err => simpa [List.foldl_cons, stepBM] using ih s hrest
    | ok b dd =>
      have hdd : dd ≤ s.2 := by
        have := h (.ok b dd) (List.mem_cons_self _ _)
        simpa [durLE] using this
      have hm2 : ¬ s.2 < dd := not_lt.mpr hdd
      simpa [List.foldl_cons, stepBM, hm2] using ih s hrest

/-- Exhaustion with a positive maximum: if no attempt reaches the (positive)
threshold, every attempt before the one producing buffer `b` measures
strictly below its duration `d`, every attempt after measures at most `d`,
and `0 < d`, then the loop runs all attempts and keeps buffer `b`. -/
lemma runChunk_argmax (minSec d : ℚ) (b : Nat) (l1 l2 : List AttemptOutcome)
    (hm : 0 < minSec) (hd : 0 < d) (hdm : d < minSec)
    (h1 : ∀ o ∈ l1, durLT d o = true) (h2 : ∀ o ∈ l2, durLE d o = true) :
    runChunk minSec (l1 ++ .ok b d :: l2) =
      ⟨false, some b, (l1 ++ .ok b d :: l2).length⟩ := by
  have hall : ∀ o ∈ l1 ++ .ok b d :: l2, durLT minSec o = true := by
    intro o ho
    rcases List.mem_append.mp ho with h | h
    · exact durLT_mono (h1 o h) (le_of_lt hdm)
    · rcases List.mem_cons.mp h with h | h
      · subst h; simpa [durLT] using hdm
      · exact durLT_of_durLE (h2 o h) hdm
  have hrun := chunkLoop_no_pass minSec hm _ 0 none 0 hall
  rw [runChunk, hrun]
  have hs1 : (l1.foldl stepBM (none, 0)).2 < d := foldl_stepBM_lt d l1 (none, 0) hd h1
  have hmid : stepBM (l1.foldl stepBM (none, 0)) (.ok b d) = (some b, d) := by
    simp [stepBM, hs1]
  have hfold : ((l1 ++ .ok b d :: l2).foldl stepBM (none, 0)).1 = some b := by
    rw [List.foldl_append, List.foldl_cons, hmid,
      foldl_stepBM_const l2 (some b, d) h2]
  rw [hfold]
  simp

/-- If every attempt before the one producing buffer `b` raises, and the
threshold is disabled (`minSec ≤ 0`), the loop breaks at that attempt. -/
lemma chunkLoop_first_success (minSec : ℚ) (hm : minSec ≤ 0) (d : ℚ) (b : Nat)
    (l2 : List AttemptOutcome) (l1 : List AttemptOutcome)
    (h1 : ∀ o ∈ l1, o = .err) :
    ∀ made best m, chunkLoop minSec (l1 ++ .ok b d :: l2) made best m =
      ⟨true, some b, made + l1.length + 1⟩ := by
  induction l1 with
  | nil =>
    intro made best m
    have hnot : ¬ 0 < minSec := not_lt.mpr hm
    simp [chunkLoop, hnot]
  | cons o rest ih =>
    intro made best m
    have ho : o = .err := h1 o (List.mem_cons_self _ _)
    subst ho
    have hrest : ∀ x ∈ rest, x = .err := fun x hx => h1 x (List.mem_cons_of_mem _ hx)
    rw [List.cons_append]
    show chunkLoop minSec (.err :: (rest ++ .ok b d :: l2)) made best m = _
    rw [chunkLoop, ih hrest (made + 1) best m]
    congr 1
    simp [List.length_cons]
    omega

/-! ## Claim theorems for the retry loop (C6, C7, C10) and assembly (C1) -/

/-- C6 counterexample.  With threshold `minSec = 2 > 0`, retries `= 0`, the
single attempt succeeds with measured duration `0 < 2` (a backend-written WAV
with zero frames).  The attempt with the maximum measured duration among all
attempts made is that attempt, yet the loop keeps no buffer at all
(`best = none`): `max_duration` starts at `0` and is only replaced by a
strictly greater duration, so the chunk is dropped, contradicting the claim
that the buffer of the maximal-duration attempt is returned. -/
theorem c6_counterexample :
    runChunk 2 [.ok 9 0] = ⟨false, none, 1⟩ := by decide

/-- C6 (amended): with `minDuration > 0`, when no attempt reaches the
threshold, every attempt before the one producing buffer `b` measures
strictly less than its duration `d`, every attempt after it measures at most
`d`, and that maximum `d` is positive, the loop performs all attempts and the
buffer returned is `b` — the earliest attempt attaining the maximum measured
duration.  (If every attempt errors or measures exactly `0`, no buffer is
kept; see the counterexample.) -/
theorem c6_fallback_max_duration (minSec d : ℚ) (b : Nat) (l1 l2 : List AttemptOutcome)
    (hm : 0 < minSec) (hd : 0 < d) (hdm : d < minSec)
    (h1 : ∀ o ∈ l1, durLT d o = true) (h2 : ∀ o ∈ l2, durLE d o = true) :
    runChunk minSec (l1 ++ .ok b d :: l2) =
      ⟨false, some b, (l1 ++ .ok b d :: l2).length⟩ :=
  runChunk_argmax minSec d b l1 l2 hm hd hdm h1 h2

/-- Witness for the amended C6: threshold `2`, attempts err, `ok 5` at
duration `1`, `ok 7` at duration `0`; buffer `5` is kept after all `3`
attempts. -/
theorem c6_fallback_max_duration_witness :
    (0 : ℚ) < 2 ∧ (0 : ℚ) < 1 ∧ (1 : ℚ) < 2 ∧
    (∀ o ∈ [AttemptOutcome.err], durLT 1 o = true) ∧
    (∀ o ∈ [AttemptOutcome.ok 7 0], durLE 1 o = true) ∧
    runChunk 2 [.err, .ok 5 1, .ok 7 0] = ⟨false, some 5, 3⟩ :=
  ⟨by decide, by decide, by decide, by decide, by decide,
    c6_fallback_max_duration 2 1 5 [.err] [.ok 7 0]
      (by decide) (by decide) (by decide) (by decide) (by decide)⟩

/-- C7 counterexample.  With `minDuration = 0 ≤ 0` and `retries = 1`, the
first backend attempt raises and the loop proceeds to a second attempt:
`attemptsMade = 2`, contradicting "at most one backend attempt ... regardless
of whether the backend call succeeds or errors". -/
theorem c7_counterexample :
    runChunk 0 [.err, .ok 1 1] = ⟨true, some 1, 2⟩ := by decide

/-- C7 (amended): with `minDuration ≤ 0` the loop accepts the first
non-raising attempt unconditionally and stops there — so at most one
*successful* backend attempt is made — but raising attempts are retried like
any other, up to `retries + 1` attempts in total. -/
theorem c7_first_success_only (minSec d : ℚ) (b : Nat) (l1 l2 : List AttemptOutcome)
    (hm : minSec ≤ 0) (h1 : ∀ o ∈ l1, o = .err) :
    runChunk minSec (l1 ++ .ok b d :: l2) = ⟨true, some b, l1.length + 1⟩ := by
  rw [runChunk, chunkLoop_first_success minSec hm d b l2 l1 h1 0 none 0]
  exact congrArg (LoopResult.mk true (some b)) (by omega)

/-- Witness for the amended C7: threshold `0`, first attempt errs, second
succeeds (duration `1`) and is accepted with no duration check. -/
theorem c7_first_success_only_witness :
    (0 : ℚ) ≤ 0 ∧ (∀ o ∈ [AttemptOutcome.err], o = .err) ∧
    runChunk 0 [.err, .ok 3 1] = ⟨true, some 3, 2⟩ :=
  ⟨by decide, by decide,
    c7_first_success_only 0 1 3 [.err] [] (by decide) (by decide)⟩

/-- C10 counterexample.  Threshold `2 > 0`, two failed attempts share the
same greatest measured duration `0`.  The claim says the buffer kept is the
one from the earliest such attempt (buffer `4`), but the loop keeps no buffer
at all, because `max_duration` starts at `0` and is only replaced by a
strictly greater duration. -/
theorem c10_counterexample :
    runChunk 2 [.ok 4 0, .ok 5 0] = ⟨false, none, 2⟩ := by decide

/-- C10 (amended): with `minDuration > 0` and no passing attempt, when a
later attempt (buffer `b2`) ties the greatest measured duration `d` of an
earlier attempt (buffer `b`), and that shared greatest duration is positive,
the buffer kept is the earlier one: the best-so-far is only replaced on a
strictly greater duration. -/
theorem c10_tie_keeps_earliest (minSec d : ℚ) (b b2 : Nat)
    (l1 l2 l3 : List AttemptOutcome)
    (hm : 0 < minSec) (hd : 0 < d) (hdm : d < minSec)
    (h1 : ∀ o ∈ l1, durLT d o = true) (h2 : ∀ o ∈ l2, durLE d o = true)
    (h3 : ∀ o ∈ l3, durLE d o = true) :
    (runChunk minSec (l1 ++ .ok b d :: (l2 ++ .ok b2 d :: l3))).best = some b := by
  have h2x : ∀ o ∈ l2 ++ AttemptOutcome.ok b2 d :: l3, durLE d o = true := by
    intro o ho
    rcases List.mem_append.mp ho with hmem | hmem
    · exact h2 o hmem
    · rcases List.mem_cons.mp hmem with hmem | hmem
      · subst hmem; simp [durLE]
      · exact h3 o hmem
  rw [runChunk_argmax minSec d b l1 _ hm hd hdm h1 h2x]

/-- Witness for the amended C10: threshold `2`, attempts `ok 4` and `ok 6`
both measure `1`; the earlier buffer `4` is kept. -/
theorem c10_tie_keeps_earliest_witness :
    (0 : ℚ) < 2 ∧ (0 : ℚ) < 1 ∧ (1 : ℚ) < 2 ∧
    (runChunk 2 [.ok 4 1, .ok 6 1]).best = some 4 :=
  ⟨by decide, by decide, by decide,
    c10_tie_keeps_earliest 2 1 4 6 [] [] [] (by decide) (by decide) (by decide)
      (by decide) (by decide) (by decide)⟩

/-- C1 counterexample.  Two chunks, `retries = 0`, threshold `2`: every
attempt for chunk 0 raises, chunk 1 succeeds (duration `3`, buffer `9`).
The claim says the whole request fails with no audio; instead the failing
chunk is silently dropped and the request returns audio assembled from
buffer `9` alone — partial output. -/
theorem c1_counterexample :
    synthesize_with_xtts_result 2 [[.err], [.ok 9 3]] = some [9] := by decide

/-- C1 (amended): a chunk whose every attempt raises (or, more generally,
ends its loop with no buffer) is dropped from assembly; the request returns
audio from the remaining chunks, and fails — with a file-not-found error
from reading the never-created output, not a dedicated `ChunkSynthesisFailed`
— exactly when every chunk ends with no buffer. -/
theorem c1_fails_iff_no_chunk_has_audio (minSec : ℚ)
    (chunkOutcomes : List (List AttemptOutcome)) :
    synthesize_with_xtts_result minSec chunkOutcomes = none ↔
      ∀ c ∈ chunkOutcomes, (runChunk minSec c).best = none := by
  constructor
  · intro h c hc
    by_cases he : (synthesizeChunksKept minSec chunkOutcomes).isEmpty
    · have hnil : synthesizeChunksKept minSec chunkOutcomes = [] :=
        List.isEmpty_iff.mp he
      exact List.filterMap_eq_nil_iff.mp hnil c hc
    · simp [synthesize_with_xtts_result, he] at h
  · intro h
    have hnil : synthesizeChunksKept minSec chunkOutcomes = [] :=
      List.filterMap_eq_nil_iff.mpr h
    simp [synthesize_with_xtts_result, hnil]

/-! ## Claim theorems for the chunking pipeline (C2) -/

/-- C2 counterexample.  The request text is 3 sentences of 150 characters
each (450 total), each ending in the sentence punctuation `.`.  The claim
says the pipeline yields exactly 3 chunks none exceeding 200 characters;
instead the normalization replaces every period by a space before chunking,
so `smart_split` finds no sentence boundary and the pipeline returns a single
450-character chunk exceeding `maxLen = 200`. -/
theorem c2_counterexample :
    c2TextBad.length = 450 ∧
    (pipeline_chunks c2TextBad 200).length = 1 ∧
    200 < ((pipeline_chunks c2TextBad 200).headD []).length := by decide

/-- C2 (amended): the 3-chunk result holds when the sentences end in
punctuation that the normalization preserves (`!` or `?`) and are separated
by whitespace: three 150-character sentences ending in `!` yield exactly the
three sentences as chunks, in order, each of length 150 ≤ 200.  With
period-terminated sentences the normalization erases the boundaries and the
whole text becomes one oversized chunk (see the counterexample). -/
theorem c2_three_bang_sentences :
    pipeline_chunks c2TextGood 200 = [c2s1, c2s2, c2s3] ∧
    c2s1.length = 150 ∧ c2s2.length = 150 ∧ c2s3.length = 150 := by decide

/-! ## Dict-model lemmas -/

lemma alErase_alSet {α : Type} (l : List (String × α)) (k : String) (v : α) :
    alErase (alSet l k v) k = alErase l k := by
  induction l with
  | nil => simp [alSet, alErase]
  | cons p rest ih =>
    by_cases h : p.1 == k
    · simp [alSet, alErase, h, List.eraseP_cons]
    · simp [alSet, alErase, h, List.eraseP_cons]
      exact ih

lemma alGet_alSet_self {α : Type} (l : List (String × α)) (k : String) (v : α) :
    alGet (alSet l k v) k = some v := by
  induction l with
  | nil => simp [alSet, alGet]
  | cons p rest ih =>
    by_cases h : p.1 == k
    · simp [alSet, alGet, h]
    · have hfind : (p :: alSet rest k v).find? (fun q => q.1 == k) =
          (alSet rest k v).find? (fun q => q.1 == k) :=
        List.find?_cons_of_neg _ (by simpa using h)
      simp only [alSet, h, Bool.false_eq_true, if_neg, if_false]
      simp only [alGet, hfind]
      simpa [alGet] using ih

lemma alSet_length_of_get {α : Type} (l : List (String × α)) (k : String)
    (v w : α) (h : alGet l k = some w) : (alSet l k v).length = l.length := by
  induction l with
  | nil => simp [alGet] at h
  | cons p rest ih =>
    by_cases hpk : p.1 == k
    · simp [alSet, hpk]
    · have hfind : (p :: rest).find? (fun q => q.1 == k) =
          rest.find? (fun q => q.1 == k) :=
        List.find?_cons_of_neg _ (by simpa using hpk)
      have hrest : alGet rest k = some w := by
        simpa [alGet, hfind] using h
      simp [alSet, hpk, ih hrest]

/-! ## Claim theorems for the assembler (C3), routing (C4, C5) and the
speaker registry (C8, C9) -/

/-- C3 counterexample.  Two buffers whose PCM descriptors differ (sample
rates 22050 vs 44100, channel counts 1 vs 2): the claim says `Merge` fails
with `FormatMismatch`, but `merge_wavs` succeeds, stamping the first buffer's
descriptor onto the concatenation of both frame sequences. -/
theorem c3_counterexample :
    merge_wavs [some ⟨⟨22050, 1, 2⟩, [10, 11]⟩, some ⟨⟨44100, 2, 2⟩, [12]⟩] =
      some ⟨⟨22050, 1, 2⟩, [10, 11, 12]⟩ ∧
    (⟨22050, 1, 2⟩ : WavParams) ≠ ⟨44100, 2, 2⟩ := by decide

/-- C3 (amended): `merge_wavs` never inspects formats.  Whenever the first
buffer is readable, it returns the first buffer's parameter record together
with the frames of every readable buffer appended in order — regardless of
any mismatch between the descriptors. -/
theorem c3_merge_ignores_format (f : WavFile) (rest : List (Option WavFile)) :
    merge_wavs (some f :: rest) =
      some ⟨f.params, f.frames ++ ((rest.filterMap id).map WavFile.frames).flatten⟩ := by
  simp [merge_wavs]

/-- C4 counterexample.  Language `"en"` (not in the wide-language set),
active backend `"xtts"` unavailable, OpenVoice available: the claim says an
available backend is selected, failure arising only when none is available;
the code raises `ValueError` (`none`) although OpenVoice is available. -/
theorem c4_counterexample :
    (BackendState.mk false false true "xtts").openvoiceAvailable = true ∧
    synthesize_audio_route ⟨false, false, true, "xtts"⟩ "en" = none := by decide

/-- C4 (amended): for a language outside the wide-language set there is no
priority-order fallback at all: whenever the globally active backend is
unavailable, resolution fails — even if other backends are available. -/
theorem c4_active_unavailable_fails (st : BackendState) (lang : String)
    (h1 : lang ∉ xtts_languages) (h2 : activeAvailable st = false) :
    synthesize_audio_route st lang = none := by
  have hne1 : ("xtts" : String) ≠ "chatterbox" := by decide
  have hne2 : ("xtts" : String) ≠ "openvoice" := by decide
  have hne3 : ("chatterbox" : String) ≠ "xtts" := by decide
  have hne4 : ("chatterbox" : String) ≠ "openvoice" := by decide
  have hne5 : ("openvoice" : String) ≠ "xtts" := by decide
  have hne6 : ("openvoice" : String) ≠ "chatterbox" := by decide
  rcases st with ⟨xa, ca, oa, act⟩
  by_cases hx : act = "xtts"
  · subst hx
    rw [activeAvailable, if_pos rfl] at h2
    subst h2
    simp [synthesize_audio_route, h1, hne1, hne2]
  · by_cases hc : act = "chatterbox"
    · subst hc
      rw [activeAvailable, if_neg hne3, if_pos rfl] at h2
      subst h2
      simp [synthesize_audio_route, h1, hne3, hne4]
    · by_cases ho : act = "openvoice"
      · subst ho
        rw [activeAvailable, if_neg hne5, if_neg hne6, if_pos rfl] at h2
        subst h2
        simp [synthesize_audio_route, h1, hne5, hne6]
      · simp [synthesize_audio_route, h1, hx, hc, ho]

/-- Witness for the amended C4: concrete state with OpenVoice available but
active `"xtts"` unavailable, language `"en"`: resolution fails. -/
theorem c4_active_unavailable_fails_witness :
    ("en" ∉ xtts_languages) ∧
    activeAvailable ⟨false, false, true, "xtts"⟩ = false ∧
    synthesize_audio_route ⟨false, false, true, "xtts"⟩ "en" = none :=
  ⟨by decide, by decide,
    c4_active_unavailable_fails ⟨false, false, true, "xtts"⟩ "en"
      (by decide) (by decide)⟩

/-- C5 counterexample.  A request for Swedish (`"sv"`, supported by no
backend) with XTTS active and available: the claim says the backend receives
the requested language or the request fails; instead routing selects XTTS
and the language actually passed is `"en"` — wrong-language audio, no
failure. -/
theorem c5_counterexample :
    synthesize_audio_route ⟨true, false, false, "xtts"⟩ "sv" = some .xtts ∧
    xttsLanguageFor "sv" = "en" ∧ ("en" : String) ≠ "sv" := by decide

/-- C5 (amended): a language with no entry in `xtts_lang_map` is silently
mapped to `"en"` on the XTTS path (the mapped languages are passed as their
table entry, identity except `"zh" ↦ "zh-cn"`); no language validation or
failure occurs — the request is synthesized in English. -/
theorem c5_unmapped_language_becomes_english (lang : String) (st : BackendState)
    (h : xtts_lang_map.lookup lang = none)
    (ha : st.active = "xtts") (hx : st.xttsAvailable = true) :
    synthesize_audio_route st lang = some Backend.xtts ∧
    xttsLanguageFor lang = "en" := by
  constructor
  · rw [synthesize_audio_route]
    by_cases hmem : lang ∈ xtts_languages
    · rw [if_pos ⟨hmem, hx⟩]
    · rw [if_neg fun hcontra => hmem hcontra.1, if_pos ⟨ha, hx⟩]
  · rw [xttsLanguageFor, h]
    rfl

/-- Witness for the amended C5: Swedish request, XTTS active and
available. -/
theorem c5_unmapped_language_becomes_english_witness :
    xtts_lang_map.lookup "sv" = none ∧
    synthesize_audio_route ⟨true, false, false, "xtts"⟩ "sv" = some Backend.xtts ∧
    xttsLanguageFor "sv" = "en" :=
  ⟨by decide,
    c5_unmapped_language_becomes_english "sv" ⟨true, false, false, "xtts"⟩
      (by decide) rfl rfl⟩

/-- C8 counterexample.  Speaker `"a"` is registered (duration 5) with its
reference file stored.  A failing re-clone of the same id (new recording of
duration 1 < 3.0 s) leaves the speaker entry in place but the stored
reference file is first overwritten by the upload and then deleted by the
validation failure: the state afterwards has no file for `"a"`, differing
from the state before the call. -/
theorem c8_counterexample :
    clone_voice cloneSt0 "a" ⟨9, 1⟩ = (⟨[("a", 5)], []⟩, .tooShort 1) ∧
    cloneSt0.files = [("a", ⟨1, 5⟩)] := by decide

/-- C8 (amended): a `clone` whose reference audio fails duration validation
leaves the speaker map unchanged, but the reference-audio file stored at the
id's path is removed (upload overwrites it, validation failure unlinks it).
For a previously registered id this destroys the previous registration's
stored file, leaving its entry dangling; only for an unregistered id is the
state fully restored. -/
theorem c8_validation_failure_erases_file (st : ServerState) (id : String)
    (a : Audio) (hid1 : ¬ id = "") (hid2 : id.length ≤ 100)
    (hbad : a.dur < 3 ∨ 60 < a.dur) :
    (clone_voice st id a).1.speakers = st.speakers ∧
    (clone_voice st id a).1.files = alErase st.files id := by
  have hv : ¬ (id = "" ∨ 100 < id.length) := by
    push_neg
    exact ⟨hid1, by omega⟩
  rcases hbad with hb | hb
  · simp only [clone_voice, if_neg hv, if_pos hb]
    exact ⟨trivial, alErase_alSet st.files id a⟩
  · have hlt : ¬ a.dur < 3 := by linarith
    simp only [clone_voice, if_neg hv, if_neg hlt, if_pos hb]
    exact ⟨trivial, alErase_alSet st.files id a⟩

/-- Witness for the amended C8: the failing re-clone of registered speaker
`"a"` keeps the speaker map and erases the file at the id's path. -/
theorem c8_validation_failure_erases_file_witness :
    (¬ ("a" : String) = "") ∧ ("a" : String).length ≤ 100 ∧
    (((9 : ℚ) < 3 ∨ (60 : ℚ) < 9) → True) ∧
    ((Audio.mk 9 1).dur < 3 ∨ (60 : ℚ) < (Audio.mk 9 1).dur) ∧
    (clone_voice cloneSt0 "a" ⟨9, 1⟩).1.speakers = cloneSt0.speakers ∧
    (clone_voice cloneSt0 "a" ⟨9, 1⟩).1.files = alErase cloneSt0.files "a" :=
  ⟨by decide, by decide, fun _ => trivial, by decide,
    (c8_validation_failure_erases_file cloneSt0 "a" ⟨9, 1⟩
      (by decide) (by decide) (by decide)).1,
    (c8_validation_failure_erases_file cloneSt0 "a" ⟨9, 1⟩
      (by decide) (by decide) (by decide)).2⟩

/-- C9 (confirmed): a successful re-clone of an already registered id
returns success (never a duplicate rejection), overwrites the stored
reference audio and duration for that id, and leaves the speaker count
unchanged. -/
theorem c9_reclone_replaces (st : ServerState) (id : String) (a : Audio)
    (d0 : ℚ) (hreg : alGet st.speakers id = some d0)
    (hid1 : ¬ id = "") (hid2 : id.length ≤ 100)
    (h3 : 3 ≤ a.dur) (h60 : a.dur ≤ 60) :
    (clone_voice st id a).2 = .ok a.dur ∧
    (clone_voice st id a).1.speakers = alSet st.speakers id a.dur ∧
    (clone_voice st id a).1.files = alSet st.files id a ∧
    alGet (clone_voice st id a).1.speakers id = some a.dur ∧
    alGet (clone_voice st id a).1.files id = some a ∧
    ((clone_voice st id a).1.speakers).length = st.speakers.length := by
  have hv : ¬ (id = "" ∨ 100 < id.length) := by
    push_neg
    exact ⟨hid1, by omega⟩
  have hlt : ¬ a.dur < 3 := not_lt.mpr h3
  have hgt : ¬ 60 < a.dur := not_lt.mpr h60
  simp only [clone_voice, if_neg hv, if_neg hlt, if_neg hgt]
  refine ⟨trivial, trivial, trivial, ?_, ?_, ?_⟩
  · exact alGet_alSet_self st.speakers id a.dur
  · exact alGet_alSet_self st.files id a
  · exact alSet_length_of_get st.speakers id a.dur d0 hreg

/-- Witness for C9: re-clone of registered speaker `"a"` with a new
10-second recording succeeds and replaces the registration; the count stays
1. -/
theorem c9_reclone_replaces_witness :
    alGet cloneSt0.speakers "a" = some 5 ∧
    (¬ ("a" : String) = "") ∧ ("a" : String).length ≤ 100 ∧
    (3 : ℚ) ≤ (Audio.mk 2 10).dur ∧ (Audio.mk 2 10).dur ≤ 60 ∧
    ((clone_voice cloneSt0 "a" ⟨2, 10⟩).2 = .ok (Audio.mk 2 10).dur ∧
     (clone_voice cloneSt0 "a" ⟨2, 10⟩).1.speakers =
       alSet cloneSt0.speakers "a" (Audio.mk 2 10).dur ∧
     (clone_voice cloneSt0 "a" ⟨2, 10⟩).1.files = alSet cloneSt0.files "a" ⟨2, 10⟩ ∧
     alGet (clone_voice cloneSt0 "a" ⟨2, 10⟩).1.speakers "a" =
       some (Audio.mk 2 10).dur ∧
     alGet (clone_voice cloneSt0 "a" ⟨2, 10⟩).1.files "a" = some ⟨2, 10⟩ ∧
     ((clone_voice cloneSt0 "a" ⟨2, 10⟩).1.speakers).length =
       cloneSt0.speakers.length) :=
  ⟨by decide, by decide, by decide, by decide, by decide,
    c9_reclone_replaces cloneSt0 "a" ⟨2, 10⟩ 5
      (by decide) (by decide) (by decide) (by decide) (by decide)⟩
